import Mathlib

/-!
Verification of the `ServerListViewSet.list` handler from
`src/server/views.py` (a Django REST framework view), shallowly embedded
as a pure pipeline over a list of `Server` records.

Modelling choices, each tied to a line of the source:
* The database table `Server.objects.all()` is a `List Server` in the
  storage's default order (`db`).  A `Server` row has an integer primary
  key `id`, a category name (`category__name` reachable through the
  foreign key), and the list of user ids of its member associations
  (the many-to-many `member` rows for that server).
* `request.query_params.get(p)` is `Option String` (`none` when the
  parameter is absent).  Python truthiness of the resulting value
  (`if category:` etc.) is `truthy`: `none` and the empty string are
  falsy.  `request.query_params.get(p) == "true"` is `boolParam`.
* `request.user` is `ReqUser` with `is_authenticated` and `id`.
* `AuthenticationFailed` and `ValidationError` become constructors of
  `ApiError`; an exception that no line of the handler catches (the
  `int(qty)` `ValueError`, or the `ValueError` Django raises for a
  negative slice bound) becomes `ApiError.runtimeError`.
* Coercion of a query-parameter string to an integer (Python `int(...)`,
  also performed by the ORM inside `filter(id=by_serverid)`) is `pyInt`.
* A queryset is a `List AnnServer`: a `Server` plus the optional
  `num_members` annotation added by `annotate(num_members=Count("member"))`.
  `Count("member")` counts the member rows visible through the query's
  join: when the `by_user` branch has already filtered the same
  many-to-many relation with `filter(member=user_id)`, Django reuses
  that join for the aggregate, which therefore only sees the rows
  matching the requesting user (`memberRowsVisible`); otherwise it
  sees all of the server's member rows.
* Each `if` block of the handler becomes one function; `serverList`
  chains them in source order and is the value handed to the serializer.
  `ServerSerializer` itself lives in `src/server/serializer.py`, which
  is not among the sources, so it is modelled from the spec as
  `serializeItem`.
-/

namespace ServerApp

/-- A row of the Server table: primary key, category name (through the
category foreign key), and the user ids of its member associations. -/
structure Server where
  id : Int
  categoryName : String
  members : List Int
deriving DecidableEq

/-- A queryset element: a server row together with the optional
`num_members` annotation. -/
structure AnnServer where
  server : Server
  num_members : Option Nat
deriving DecidableEq

/-- The query parameters of the request, each `none` when absent. -/
structure Request where
  category : Option String
  qty : Option String
  by_user : Option String
  by_serverid : Option String
  num_members : Option String
deriving DecidableEq

/-- The ambient `request.user`. -/
structure ReqUser where
  is_authenticated : Bool
  id : Int
deriving DecidableEq

/-- The observable failures of the handler: the two structured API errors
it raises, and an exception it lets escape unhandled. -/
inductive ApiError where
  | authenticationFailed
  | validationError (detail : String)
  | runtimeError (msg : String)
deriving DecidableEq

/-- Python truthiness of an optional query-parameter string: absent and
empty are falsy. -/
def truthy : Option String → Bool
  | none => false
  | some s => !s.isEmpty

/-- Value of a list of decimal digit characters, `none` if empty or if
some character is not a digit. -/
def parseDigits (cs : List Char) : Option Nat :=
  if cs.isEmpty then none
  else if cs.all Char.isDigit then
    some (cs.foldl (fun n c => n * 10 + (c.toNat - 48)) 0)
  else none

/-- Python `int(s)` on a string, as the ORM's id coercion and the `qty`
conversion perform it: an optional sign followed by decimal digits
yields an integer, anything else raises `ValueError` (`none` here).
Python's tolerance for surrounding whitespace, underscore separators and
non-ASCII digits is not modelled; no claim turns on those inputs. -/
def pyInt (s : String) : Option Int :=
  match s.data with
  | '-' :: cs => (parseDigits cs).map (fun n => -(n : Int))
  | '+' :: cs => (parseDigits cs).map (fun n => (n : Int))
  | cs => (parseDigits cs).map (fun n => (n : Int))

/-- `request.query_params.get(p) == "true"` (views.py lines 44 and 46). -/
def boolParam (o : Option String) : Bool := o == some "true"

/-- `Server.objects.all()` as a queryset: every row, no annotation. -/
def initItems (db : List Server) : List AnnServer :=
  db.map fun s => { server := s, num_members := none }

/-- Lines 48-49: `if category: queryset = queryset.filter(category__name=category)`. -/
def categoryFilter (req : Request) (items : List AnnServer) : List AnnServer :=
  if truthy req.category then
    items.filter fun a => some a.server.categoryName == req.category
  else items

/-- Lines 51-56: the `by_user` block.  When `by_user == "true"` it demands
a truthy `by_serverid` and an authenticated user, filtering to servers
the user is a member of; otherwise it raises `AuthenticationFailed`. -/
def byUserFilter (req : Request) (user : ReqUser) (items : List AnnServer) :
    Except ApiError (List AnnServer) :=
  if boolParam req.by_user then
    if boolParam req.by_user && truthy req.by_serverid && user.is_authenticated then
      .ok (items.filter fun a => a.server.members.contains user.id)
    else
      .error .authenticationFailed
  else .ok items

/-- The member rows of `s` that the aggregate of lines 58-59 can see.
When the `by_user` branch ran (`by_user == "true"`; it must have
succeeded for control to reach the annotation), its
`filter(member=user_id)` join is reused by the following
`annotate(Count("member"))`, per Django's documented order-of-filter-
and-annotate semantics, so only the member rows equal to the
requesting user's id remain visible; otherwise every member row of the
server is visible. -/
def memberRowsVisible (req : Request) (user : ReqUser) (s : Server) : List Int :=
  if boolParam req.by_user then s.members.filter (fun m => m == user.id)
  else s.members

/-- Lines 58-59: `annotate(num_members=Count("member"))`, counting the
member rows visible through the query's join at that point. -/
def numMembersAnnotate (req : Request) (user : ReqUser) (items : List AnnServer) :
    List AnnServer :=
  if boolParam req.num_members then
    items.map fun a =>
      { a with num_members := some (memberRowsVisible req user a.server).length }
  else items

/-- Lines 61-69: the `by_serverid` block.  Requires authentication; a
value the ORM cannot coerce to an integer raises the generic
`ValidationError` (the `except ValueError` arm), a coercible value
filters by id and raises the "not found" `ValidationError` when the
filtered set is empty.  The "not found" error is not a `ValueError`, so
the `except` arm does not intercept it. -/
def byServeridFilter (req : Request) (user : ReqUser) (items : List AnnServer) :
    Except ApiError (List AnnServer) :=
  if truthy req.by_serverid then
    if !user.is_authenticated then
      .error .authenticationFailed
    else
      match pyInt (req.by_serverid.getD "") with
      | none => .error (.validationError "Server value error")
      | some n =>
        if (items.filter fun a => a.server.id == n).isEmpty then
          .error (.validationError ("Server with id " ++ req.by_serverid.getD "" ++ " not found"))
        else .ok (items.filter fun a => a.server.id == n)
  else .ok items

/-- Lines 71-72: `if qty: queryset = queryset[: int(qty)]`.  An
unparsable `qty` makes `int` raise an uncaught `ValueError`; a negative
bound makes the queryset slice raise an uncaught `ValueError` as well. -/
def qtyTruncate (req : Request) (items : List AnnServer) :
    Except ApiError (List AnnServer) :=
  if truthy req.qty then
    match pyInt (req.qty.getD "") with
    | none => .error (.runtimeError "invalid literal for int() with base 10")
    | some n =>
      if n < 0 then .error (.runtimeError "Negative indexing is not supported.")
      else .ok (items.take n.toNat)
  else .ok items

/-- The queryset just before the `by_serverid` block runs (after the
category filter, the `by_user` block and the annotation). -/
def preServeridItems (db : List Server) (req : Request) (user : ReqUser) :
    Except ApiError (List AnnServer) :=
  (byUserFilter req user (categoryFilter req (initItems db))).map
    (numMembersAnnotate req user)

/-- The queryset just before the `qty` truncation runs. -/
def preQtyItems (db : List Server) (req : Request) (user : ReqUser) :
    Except ApiError (List AnnServer) := do
  let pre ← preServeridItems db req user
  byServeridFilter req user pre

/-- The whole handler body of `ServerListViewSet.list` up to the
queryset handed to `ServerSerializer`: the five blocks in source order. -/
def serverList (db : List Server) (req : Request) (user : ReqUser) :
    Except ApiError (List AnnServer) := do
  let afterSid ← preQtyItems db req user
  qtyTruncate req afterSid

/-- One object of the JSON response body. -/
structure SerializedServer where
  id : Int
  num_members : Option Nat
deriving DecidableEq

/-- Modelled from the spec: `ServerSerializer` (src/server/serializer.py
is not among the sources).  Per the spec, serialization preserves each
record and "when `num_members` was requested each object additionally
includes a member count field", the count computed by the annotation
step and passed through the `num_members` context flag. -/
def serializeItem (withNum : Bool) (a : AnnServer) : SerializedServer :=
  { id := a.server.id, num_members := if withNum then a.num_members else none }

/-- Line 74-75: serialize the final queryset with the `num_members`
context flag. -/
def serverListResponse (db : List Server) (req : Request) (user : ReqUser) :
    Except ApiError (List SerializedServer) :=
  (serverList db req user).map
    (List.map (serializeItem (boolParam req.num_members)))

end ServerApp

namespace ServerApp

/-! Helper lemmas about the pipeline stages. -/

lemma except_bind_ok {α β : Type} {e : Except ApiError α} {f : α → Except ApiError β}
    {b : β} (h : (e >>= f) = .ok b) : ∃ a, e = .ok a ∧ f a = .ok b := by
  cases e with
  | error err => simp [Bind.bind, Except.bind] at h
  | ok a => exact ⟨a, rfl, by simpa [Bind.bind, Except.bind] using h⟩

lemma except_bind_error {α β : Type} {e : Except ApiError α} {f : α → Except ApiError β}
    {err : ApiError} (h : e = .error err) : (e >>= f) = .error err := by
  subst h; rfl

lemma except_map_ok {α β : Type} {e : Except ApiError α} {f : α → β} {b : β}
    (h : Except.map f e = .ok b) : ∃ a, e = .ok a ∧ f a = b := by
  cases e with
  | error err => simp [Except.map] at h
  | ok a => exact ⟨a, rfl, by simpa [Except.map] using h⟩

lemma boolParam_true {o : Option String} (h : o = some "true") : boolParam o = true := by
  simp [boolParam, h]

lemma boolParam_false {o : Option String} (h : o ≠ some "true") : boolParam o = false := by
  simpa [boolParam] using h

lemma truthy_some {s : String} (h : s ≠ "") : truthy (some s) = true := by
  have he : s.isEmpty = false := by
    rcases hb : s.isEmpty with _ | _
    · rfl
    · exact absurd ((String.isEmpty_iff s).mp hb) h
  simp [truthy, he]

lemma pyInt_ne_empty {s : String} {n : Int} (h : pyInt s = some n) : s ≠ "" := by
  intro hs
  subst hs
  simp [pyInt, parseDigits] at h

lemma categoryFilter_sublist (req : Request) (items : List AnnServer) :
    (categoryFilter req items).Sublist items := by
  unfold categoryFilter
  split
  · exact List.filter_sublist items
  · exact List.Sublist.refl items

lemma byUserFilter_ok_sublist {req : Request} {user : ReqUser} {items out : List AnnServer}
    (h : byUserFilter req user items = .ok out) : out.Sublist items := by
  unfold byUserFilter at h
  split at h
  · split at h
    · cases h
      exact List.filter_sublist items
    · cases h
  · cases h
    exact List.Sublist.refl items

lemma numMembersAnnotate_map_server (req : Request) (user : ReqUser)
    (items : List AnnServer) :
    (numMembersAnnotate req user items).map AnnServer.server =
      items.map AnnServer.server := by
  unfold numMembersAnnotate
  split
  · simp
  · rfl

lemma byServeridFilter_ok_sublist {req : Request} {user : ReqUser} {items out : List AnnServer}
    (h : byServeridFilter req user items = .ok out) : out.Sublist items := by
  unfold byServeridFilter at h
  split at h
  · split at h
    · cases h
    · split at h
      · cases h
      · split at h
        · cases h
        · cases h
          exact List.filter_sublist items
  · cases h
    exact List.Sublist.refl items

lemma qtyTruncate_ok_sublist {req : Request} {items out : List AnnServer}
    (h : qtyTruncate req items = .ok out) : out.Sublist items := by
  unfold qtyTruncate at h
  split at h
  · split at h
    · cases h
    · split at h
      · cases h
      · cases h
        exact List.take_sublist _ items
  · cases h
    exact List.Sublist.refl items

lemma initItems_map_server (db : List Server) :
    (initItems db).map AnnServer.server = db := by
  unfold initItems
  rw [List.map_map]
  exact List.map_id db

end ServerApp

namespace ServerApp

lemma ok_bind {α β : Type} (a : α) (f : α → Except ApiError β) :
    (Except.ok a >>= f) = f a := rfl

lemma serverList_of_preQty {db : List Server} {req : Request} {user : ReqUser}
    {items : List AnnServer} (h : preQtyItems db req user = .ok items) :
    serverList db req user = qtyTruncate req items := by
  unfold serverList
  rw [h, ok_bind]

lemma preQty_of_preServerid {db : List Server} {req : Request} {user : ReqUser}
    {pre : List AnnServer} (h : preServeridItems db req user = .ok pre) :
    preQtyItems db req user = byServeridFilter req user pre := by
  unfold preQtyItems
  rw [h, ok_bind]

lemma serverList_destruct {db : List Server} {req : Request} {user : ReqUser}
    {items : List AnnServer} (h : serverList db req user = .ok items) :
    ∃ bOut mid, byUserFilter req user (categoryFilter req (initItems db)) = .ok bOut ∧
      byServeridFilter req user (numMembersAnnotate req user bOut) = .ok mid ∧
      qtyTruncate req mid = .ok items := by
  unfold serverList at h
  obtain ⟨mid, hmid, hq⟩ := except_bind_ok h
  unfold preQtyItems at hmid
  obtain ⟨pre, hpre, hbs⟩ := except_bind_ok hmid
  unfold preServeridItems at hpre
  obtain ⟨bOut, hbu, hann⟩ := except_map_ok hpre
  subst hann
  exact ⟨bOut, mid, hbu, hbs, hq⟩

lemma serverList_error_of_byUser {db : List Server} {req : Request} {user : ReqUser}
    {err : ApiError}
    (h : byUserFilter req user (categoryFilter req (initItems db)) = .error err) :
    serverList db req user = .error err := by
  unfold serverList preQtyItems preServeridItems
  rw [h]
  rfl

lemma serverList_server_sublist {db : List Server} {req : Request} {user : ReqUser}
    {items : List AnnServer} (h : serverList db req user = .ok items) :
    (items.map AnnServer.server).Sublist db := by
  obtain ⟨bOut, mid, hbu, hbs, hq⟩ := serverList_destruct h
  have h1 : (items.map AnnServer.server).Sublist (mid.map AnnServer.server) :=
    (qtyTruncate_ok_sublist hq).map _
  have h2 : (mid.map AnnServer.server).Sublist (bOut.map AnnServer.server) := by
    have := (byServeridFilter_ok_sublist hbs).map AnnServer.server
    rwa [numMembersAnnotate_map_server] at this
  have h3 : (bOut.map AnnServer.server).Sublist ((initItems db).map AnnServer.server) :=
    ((byUserFilter_ok_sublist hbu).trans (categoryFilter_sublist req _)).map _
  have h4 := (h1.trans h2).trans h3
  rwa [initItems_map_server] at h4

lemma serverList_mem_db {db : List Server} {req : Request} {user : ReqUser}
    {items : List AnnServer} (h : serverList db req user = .ok items) :
    ∀ a ∈ items, a.server ∈ db := by
  intro a ha
  exact (serverList_server_sublist h).subset (List.mem_map_of_mem AnnServer.server ha)

lemma mem_numMembersAnnotate_server {req : Request} {user : ReqUser}
    {items : List AnnServer} {a : AnnServer}
    (ha : a ∈ numMembersAnnotate req user items) : ∃ b ∈ items, a.server = b.server := by
  unfold numMembersAnnotate at ha
  split at ha
  · obtain ⟨b, hb, rfl⟩ := List.mem_map.mp ha
    exact ⟨b, hb, rfl⟩
  · exact ⟨a, ha, rfl⟩

lemma byUserFilter_ok_mem {req : Request} {user : ReqUser} {items out : List AnnServer}
    (hbu : boolParam req.by_user = true) (h : byUserFilter req user items = .ok out) :
    ∀ a ∈ out, a.server.members.contains user.id = true := by
  unfold byUserFilter at h
  rw [hbu, if_pos rfl] at h
  split at h
  · cases h
    intro a ha
    exact (List.mem_filter.mp ha).2
  · cases h

lemma byUserFilter_error_of {req : Request} {user : ReqUser} {items : List AnnServer}
    (hbu : boolParam req.by_user = true)
    (hcond : truthy req.by_serverid = false ∨ user.is_authenticated = false) :
    byUserFilter req user items = .error .authenticationFailed := by
  unfold byUserFilter
  rw [hbu, if_pos rfl]
  rcases hcond with hc | hc <;> simp [hc]

lemma filter_id_singleton {l : List AnnServer} {n : Int}
    (hnd : (l.map (fun a => a.server.id)).Nodup) {x : AnnServer}
    (hx : x ∈ l) (hid : x.server.id = n) :
    l.filter (fun a => a.server.id == n) = [x] := by
  induction l with
  | nil => cases hx
  | cons b t ih =>
    rw [List.map_cons, List.nodup_cons] at hnd
    obtain ⟨hb, ht⟩ := hnd
    rcases List.mem_cons.mp hx with hx | hx
    · subst hx
      rw [List.filter_cons, if_pos (by simp [hid])]
      have hnil : t.filter (fun a => a.server.id == n) = [] := by
        apply List.filter_eq_nil_iff.mpr
        intro y hy
        simp only [beq_iff_eq]
        intro hyn
        exact hb (hid ▸ hyn ▸ List.mem_map_of_mem (fun a => a.server.id) hy)
      rw [hnil]
    · have hbn : (b.server.id == n) = false := by
        simp only [beq_eq_false_iff_ne, ne_eq]
        intro hbn
        apply hb
        rw [hbn, ← hid]
        exact List.mem_map_of_mem (fun a => a.server.id) hx
      rw [List.filter_cons, if_neg (by simp [hbn])]
      exact ih ht hx

end ServerApp

namespace ServerApp

/-! Concrete fixtures used by the witness theorems. -/

def wServer1 : Server := ⟨1, "gaming", [10, 20]⟩
def wServer2 : Server := ⟨2, "gaming", [10]⟩
def wServer3 : Server := ⟨3, "music", [30]⟩
def wDb : List Server := [wServer1, wServer2, wServer3]
def wAnon : ReqUser := ⟨false, 99⟩
def wAlice : ReqUser := ⟨true, 10⟩
def wReqNone : Request := ⟨none, none, none, none, none⟩

/-- C9: whatever combination of query parameters is supplied, a successful
result handed to serialization is a sublist of the full Server table:
a subset of its records, in the storage's default order, so no step can
introduce a record that is not a Server record. -/
theorem c9_result_sublist_of_db (db : List Server) (req : Request) (user : ReqUser)
    (items : List AnnServer) (h : serverList db req user = .ok items) :
    (items.map AnnServer.server).Sublist db :=
  serverList_server_sublist h

theorem c9_witness :
    ((((initItems wDb).take 2).map AnnServer.server).Sublist wDb) :=
  c9_result_sublist_of_db wDb ⟨none, some "2", none, none, none⟩ wAnon
    ((initItems wDb).take 2) rfl

end ServerApp

namespace ServerApp

lemma serverList_no_guards {db : List Server} {req : Request} {user : ReqUser}
    (hbu : boolParam req.by_user = false) (hsid : truthy req.by_serverid = false)
    (hqty : truthy req.qty = false) :
    serverList db req user =
      .ok (numMembersAnnotate req user (categoryFilter req (initItems db))) := by
  unfold serverList preQtyItems preServeridItems byUserFilter byServeridFilter qtyTruncate
  rw [hbu, hsid, hqty]
  rfl

lemma categoryFilter_eq_of_some {req : Request} {cat : String} (db : List Server)
    (hcat : req.category = some cat) (hne : cat ≠ "") :
    categoryFilter req (initItems db) =
      (db.filter (fun s => s.categoryName == cat)).map
        (fun s => { server := s, num_members := none }) := by
  unfold categoryFilter initItems
  rw [hcat, truthy_some hne, if_pos rfl, List.filter_map]
  congr 1

/-- C8: with `category=X` present and non-empty (and no other effective
parameter), the result is exactly the servers whose category name equals
`X` by exact string match, an unknown `X` yielding the empty list rather
than an error; and with no query parameters at all the result is every
Server record, unfiltered and unannotated. -/
theorem c8_category_exact_and_default (db : List Server) (req : Request) (user : ReqUser)
    (cat : String) (hcat : req.category = some cat) (hne : cat ≠ "")
    (hbu : req.by_user ≠ some "true") (hsid : truthy req.by_serverid = false)
    (hqty : truthy req.qty = false) :
    (∃ items, serverList db req user = .ok items ∧
      items.map AnnServer.server = db.filter (fun s => s.categoryName == cat) ∧
      ((∀ s ∈ db, s.categoryName ≠ cat) → items = [])) ∧
    serverList db ⟨none, none, none, none, none⟩ user =
      .ok (db.map (fun s => { server := s, num_members := none })) := by
  constructor
  · have hmain := @serverList_no_guards db req user (boolParam_false hbu) hsid hqty
    refine ⟨_, hmain, ?_, ?_⟩
    · rw [numMembersAnnotate_map_server, categoryFilter_eq_of_some db hcat hne,
        List.map_map]
      exact List.map_id _
    · intro hnone
      have hfil : db.filter (fun s => s.categoryName == cat) = [] := by
        apply List.filter_eq_nil_iff.mpr
        intro s hs
        simpa using hnone s hs
      apply List.map_eq_nil_iff.mp
      rw [numMembersAnnotate_map_server, categoryFilter_eq_of_some db hcat hne,
        List.map_map, hfil]
      rfl
  · rfl

theorem c8_witness :
    (∃ items, serverList wDb ⟨some "gaming", none, none, none, none⟩ wAnon = .ok items ∧
      items.map AnnServer.server = wDb.filter (fun s => s.categoryName == "gaming") ∧
      ((∀ s ∈ wDb, s.categoryName ≠ "gaming") → items = [])) ∧
    serverList wDb ⟨none, none, none, none, none⟩ wAnon =
      .ok (wDb.map (fun s => { server := s, num_members := none })) :=
  c8_category_exact_and_default wDb ⟨some "gaming", none, none, none, none⟩ wAnon
    "gaming" rfl (by decide) (by decide) rfl rfl

end ServerApp

namespace ServerApp

/-- C2: with `by_user=true`, an unauthenticated caller or an absent (or
empty, hence falsy) `by_serverid` makes the handler fail with the
Unauthenticated error, even when the caller is authenticated; when the
caller is authenticated and `by_serverid` is present, any successful
result only contains servers the current user is a member of. -/
theorem c2_by_user_guard (db : List Server) (req : Request) (user : ReqUser)
    (hbu : req.by_user = some "true") :
    ((user.is_authenticated = false ∨ truthy req.by_serverid = false) →
      serverList db req user = .error .authenticationFailed) ∧
    (user.is_authenticated = true → truthy req.by_serverid = true →
      ∀ items, serverList db req user = .ok items →
        ∀ a ∈ items, user.id ∈ a.server.members) := by
  constructor
  · intro hcond
    exact serverList_error_of_byUser
      (byUserFilter_error_of (boolParam_true hbu) hcond.symm)
  · intro _ _ items hok a ha
    obtain ⟨bOut, mid, hbuOk, hbs, hq⟩ := serverList_destruct hok
    have h1 : a ∈ mid := (qtyTruncate_ok_sublist hq).subset ha
    have h2 : a ∈ numMembersAnnotate req user bOut :=
      (byServeridFilter_ok_sublist hbs).subset h1
    obtain ⟨b, hb, hab⟩ := mem_numMembersAnnotate_server h2
    have hc := byUserFilter_ok_mem (boolParam_true hbu) hbuOk b hb
    rw [← hab] at hc
    exact List.elem_iff.mp hc

theorem c2_witness :
    (serverList wDb ⟨none, none, some "true", none, none⟩ wAlice =
      .error .authenticationFailed) ∧
    (∀ a ∈ [AnnServer.mk wServer2 none], wAlice.id ∈ a.server.members) := by
  constructor
  · exact (c2_by_user_guard wDb ⟨none, none, some "true", none, none⟩ wAlice rfl).1
      (Or.inr rfl)
  · exact (c2_by_user_guard wDb ⟨none, none, some "true", some "2", none⟩ wAlice rfl).2
      rfl rfl [AnnServer.mk wServer2 none] rfl

end ServerApp

namespace ServerApp

/-- C1: refuted by the code.  For `by_user=true&by_serverid=1&num_members=true`
issued by an authenticated member of a two-member server, the annotation
reuses the member join already filtered to `member=user_id`, so the
response carries `num_members = 1` while the server has 2 distinct
members — the count is not the number of distinct members of the server
in the very combination the claim includes. -/
theorem c1_join_reuse_undercount :
    serverList wDb ⟨none, none, some "true", some "1", some "true"⟩ wAlice =
      .ok [⟨wServer1, some 1⟩] ∧
    serverListResponse wDb ⟨none, none, some "true", some "1", some "true"⟩ wAlice =
      .ok [{ id := 1, num_members := some 1 }] ∧
    wServer1.members.dedup.length = 2 :=
  ⟨rfl, rfl, by decide⟩

end ServerApp

namespace ServerApp

/-- C10: empty-string parameter values behave as absent ones, because
every presence test is a truthiness test: `category=""` applies no
category filter, `by_serverid=""` triggers neither the authentication
check nor the id filter (an unauthenticated caller with `by_serverid=""`
gets the full list), while `by_user=true` with `by_serverid=""` still
fails with the Unauthenticated error even for an authenticated caller. -/
theorem c10_empty_params_as_absent (db : List Server) (user : ReqUser) :
    (∀ req : Request, req.category = some "" →
      serverList db req user = serverList db { req with category := none } user) ∧
    (∀ req : Request, req.by_serverid = some "" →
      serverList db req user = serverList db { req with by_serverid := none } user) ∧
    serverList db ⟨none, none, none, some "", none⟩ ⟨false, user.id⟩ =
      .ok (db.map (fun s => { server := s, num_members := none })) ∧
    serverList db ⟨none, none, some "true", some "", none⟩ user =
      .error .authenticationFailed := by
  refine ⟨?_, ?_, ?_, ?_⟩
  · intro req hcat
    obtain ⟨c, q, bu, bs, nm⟩ := req
    cases hcat
    rfl
  · intro req hsid
    obtain ⟨c, q, bu, bs, nm⟩ := req
    cases hsid
    rfl
  · rfl
  · unfold serverList preQtyItems preServeridItems byUserFilter
    rfl

theorem c10_witness :
    (serverList wDb ⟨some "", none, none, none, none⟩ wAnon =
      serverList wDb ⟨none, none, none, none, none⟩ wAnon) ∧
    (serverList wDb ⟨none, none, none, some "", none⟩ wAnon =
      serverList wDb ⟨none, none, none, none, none⟩ wAnon) ∧
    serverList wDb ⟨none, none, none, some "", none⟩ ⟨false, wAnon.id⟩ =
      .ok (wDb.map (fun s => { server := s, num_members := none })) ∧
    serverList wDb ⟨none, none, some "true", some "", none⟩ wAlice =
      .error .authenticationFailed := by
  have h := c10_empty_params_as_absent wDb wAnon
  have h2 := c10_empty_params_as_absent wDb wAlice
  exact ⟨h.1 ⟨some "", none, none, none, none⟩ rfl,
    h.2.1 ⟨none, none, none, some "", none⟩ rfl, h.2.2.1, h2.2.2.2⟩

end ServerApp

namespace ServerApp

lemma categoryFilter_skip {req : Request} (h : truthy req.category = false)
    (items : List AnnServer) : categoryFilter req items = items := by
  unfold categoryFilter
  rw [h]
  rfl

lemma byUserFilter_skip {req : Request} {user : ReqUser} (h : boolParam req.by_user = false)
    (items : List AnnServer) : byUserFilter req user items = .ok items := by
  unfold byUserFilter
  rw [h]
  rfl

lemma byServeridFilter_skip {req : Request} {user : ReqUser}
    (h : truthy req.by_serverid = false) (items : List AnnServer) :
    byServeridFilter req user items = .ok items := by
  unfold byServeridFilter
  rw [h]
  rfl

lemma qtyTruncate_skip {req : Request} (h : truthy req.qty = false)
    (items : List AnnServer) : qtyTruncate req items = .ok items := by
  unfold qtyTruncate
  rw [h]
  rfl

lemma preServerid_of_skip {db : List Server} {req : Request} {user : ReqUser}
    (hbu : boolParam req.by_user = false) :
    preServeridItems db req user =
      .ok (numMembersAnnotate req user (categoryFilter req (initItems db))) := by
  unfold preServeridItems
  rw [byUserFilter_skip hbu]
  rfl

lemma serverList_of_preServerid {db : List Server} {req : Request} {user : ReqUser}
    {pre : List AnnServer} (hpre : preServeridItems db req user = .ok pre) :
    serverList db req user =
      (byServeridFilter req user pre >>= fun mid => qtyTruncate req mid) := by
  unfold serverList
  rw [preQty_of_preServerid hpre]

lemma byServeridFilter_unauth {req : Request} {user : ReqUser}
    (hsid : truthy req.by_serverid = true) (hauth : user.is_authenticated = false)
    (items : List AnnServer) :
    byServeridFilter req user items = .error .authenticationFailed := by
  unfold byServeridFilter
  rw [hsid, hauth]
  rfl

end ServerApp

namespace ServerApp

/-- C3: for an authenticated caller with a (non-empty) `by_serverid`
whose filter stage succeeded: an id absent from the already-filtered set
fails with the Validation error whose message contains the requested id,
and an id the ORM cannot coerce to an integer fails, on a distinct code
path, with the generic Validation message. -/
theorem c3_by_serverid_validation (db : List Server) (req : Request) (user : ReqUser)
    (sid : String) (hauth : user.is_authenticated = true)
    (hsid : req.by_serverid = some sid) (hne : sid ≠ "")
    (pre : List AnnServer) (hpre : preServeridItems db req user = .ok pre) :
    (pyInt sid = none →
      serverList db req user = .error (.validationError "Server value error")) ∧
    (∀ n : Int, pyInt sid = some n →
      (pre.filter (fun a => a.server.id == n)).isEmpty = true →
      serverList db req user =
        .error (.validationError ("Server with id " ++ sid ++ " not found")) ∧
      ∃ l r, "Server with id " ++ sid ++ " not found" = l ++ sid ++ r) := by
  have hlist := serverList_of_preServerid hpre
  constructor
  · intro hpi
    have hbs : byServeridFilter req user pre =
        .error (.validationError "Server value error") := by
      unfold byServeridFilter
      rw [hsid, truthy_some hne, if_pos rfl, hauth]
      simp [hpi]
    rw [hlist, hbs]
    rfl
  · intro n hpi hempty
    have hbs : byServeridFilter req user pre =
        .error (.validationError ("Server with id " ++ sid ++ " not found")) := by
      unfold byServeridFilter
      rw [hsid, truthy_some hne, if_pos rfl, hauth]
      simp [hpi, hempty]
    refine ⟨?_, "Server with id ", " not found", rfl⟩
    rw [hlist, hbs]
    rfl

theorem c3_witness :
    (serverList wDb ⟨none, none, none, some "abc", none⟩ wAlice =
      .error (.validationError "Server value error")) ∧
    (serverList wDb ⟨none, none, none, some "9999", none⟩ wAlice =
      .error (.validationError "Server with id 9999 not found")) ∧
    (∃ l r, ("Server with id 9999 not found" : String) = l ++ "9999" ++ r) := by
  have habc := c3_by_serverid_validation wDb ⟨none, none, none, some "abc", none⟩ wAlice
    "abc" rfl rfl (by decide) (initItems wDb) rfl
  have h99 := c3_by_serverid_validation wDb ⟨none, none, none, some "9999", none⟩ wAlice
    "9999" rfl rfl (by decide) (initItems wDb) rfl
  have h2 := h99.2 9999 rfl rfl
  exact ⟨habc.1 rfl, h2.1, h2.2⟩

end ServerApp

namespace ServerApp

/-- C4: with `by_serverid` present and `by_user` not `"true"`, an
unauthenticated caller fails with the Unauthenticated error before the
id is ever evaluated (whatever string it is); an authenticated caller
asking for an existing id, with no other filter in effect, receives
exactly one record, the server with that id. -/
theorem c4_by_serverid_auth (db : List Server) (req : Request) (user : ReqUser) :
    (user.is_authenticated = false → truthy req.by_serverid = true →
      req.by_user ≠ some "true" →
      serverList db req user = .error .authenticationFailed) ∧
    (∀ (sid : String) (n : Int) (s : Server),
      user.is_authenticated = true → req.by_serverid = some sid →
      pyInt sid = some n → req.by_user ≠ some "true" →
      truthy req.category = false → truthy req.qty = false →
      (db.map Server.id).Nodup → s ∈ db → s.id = n →
      ∃ a, serverList db req user = .ok [a] ∧ a.server = s) := by
  constructor
  · intro hauth hsid hbu
    have hpre := @preServerid_of_skip db req user (boolParam_false hbu)
    rw [serverList_of_preServerid hpre, byServeridFilter_unauth hsid hauth]
    rfl
  · intro sid n s hauth hsid hpi hbu hcat hqty hnd hs hid
    have hpre := @preServerid_of_skip db req user (boolParam_false hbu)
    rw [categoryFilter_skip hcat] at hpre
    have hserver : (numMembersAnnotate req user (initItems db)).map AnnServer.server = db := by
      rw [numMembersAnnotate_map_server, initItems_map_server]
    have hids : (numMembersAnnotate req user (initItems db)).map (fun a => a.server.id) =
        db.map Server.id := by
      rw [show (fun a : AnnServer => a.server.id) = Server.id ∘ AnnServer.server from rfl,
        ← List.map_map, hserver]
    have hnd' : ((numMembersAnnotate req user (initItems db)).map (fun a => a.server.id)).Nodup := by
      rw [hids]; exact hnd
    have hsmem : s ∈ (numMembersAnnotate req user (initItems db)).map AnnServer.server := by
      rw [hserver]; exact hs
    obtain ⟨x, hx, hxs⟩ := List.mem_map.mp hsmem
    have hfil : (numMembersAnnotate req user (initItems db)).filter
        (fun a => a.server.id == n) = [x] :=
      filter_id_singleton hnd' hx (by rw [hxs, hid])
    have hbs : byServeridFilter req user (numMembersAnnotate req user (initItems db)) =
        .ok [x] := by
      unfold byServeridFilter
      rw [hsid, truthy_some (pyInt_ne_empty hpi), if_pos rfl, hauth]
      simp [hpi, hfil]
    rw [serverList_of_preServerid hpre, hbs]
    exact ⟨x, by rw [ok_bind, qtyTruncate_skip hqty], hxs⟩

theorem c4_witness :
    (serverList wDb ⟨none, none, none, some "abc", none⟩ wAnon =
      .error .authenticationFailed) ∧
    (∃ a, serverList wDb ⟨none, none, none, some "2", none⟩ wAlice = .ok [a] ∧
      a.server = wServer2) := by
  constructor
  · exact (c4_by_serverid_auth wDb ⟨none, none, none, some "abc", none⟩ wAnon).1
      rfl rfl (by decide)
  · exact (c4_by_serverid_auth wDb ⟨none, none, none, some "2", none⟩ wAlice).2
      "2" 2 wServer2 rfl rfl rfl (by decide) rfl rfl (by decide) (by simp [wDb]) rfl

end ServerApp

namespace ServerApp

/-- C5: when `qty` is present but does not parse as an integer, the
truncation step raises the uncaught parse failure, a runtime error
rather than a structured Unauthenticated or Validation error; and when
`qty` does parse, the truncation step never produces a structured
error. -/
theorem c5_qty_unparsable_runtime (db : List Server) (req : Request) (user : ReqUser)
    (items : List AnnServer) (hpre : preQtyItems db req user = .ok items)
    (hq : truthy req.qty = true) :
    (pyInt (req.qty.getD "") = none →
      serverList db req user =
        .error (.runtimeError "invalid literal for int() with base 10")) ∧
    ((pyInt (req.qty.getD "")).isSome = true →
      (∀ d, serverList db req user ≠ .error (.validationError d)) ∧
      serverList db req user ≠ .error .authenticationFailed) := by
  have hlist := serverList_of_preQty hpre
  constructor
  · intro hpi
    rw [hlist]
    unfold qtyTruncate
    rw [hq, hpi]
    simp
  · intro hpi
    obtain ⟨n, hn⟩ := Option.isSome_iff_exists.mp hpi
    rw [hlist]
    unfold qtyTruncate
    rw [hq, hn]
    rcases lt_or_le n 0 with hneg | hpos
    · simp [hneg]
    · simp [not_lt.mpr hpos]

theorem c5_witness :
    (serverList wDb ⟨none, some "abc", none, none, none⟩ wAnon =
      .error (.runtimeError "invalid literal for int() with base 10")) ∧
    ((∀ d, serverList wDb ⟨none, some "2", none, none, none⟩ wAnon ≠
        .error (.validationError d)) ∧
      serverList wDb ⟨none, some "2", none, none, none⟩ wAnon ≠
        .error .authenticationFailed) := by
  constructor
  · exact (c5_qty_unparsable_runtime wDb ⟨none, some "abc", none, none, none⟩ wAnon
      (initItems wDb) rfl rfl).1 rfl
  · exact (c5_qty_unparsable_runtime wDb ⟨none, some "2", none, none, none⟩ wAnon
      (initItems wDb) rfl rfl).2 rfl

end ServerApp

namespace ServerApp

lemma qtyTruncate_one {req : Request} (hq : req.qty = some "1")
    (items : List AnnServer) : qtyTruncate req items = .ok (items.take 1) := by
  unfold qtyTruncate
  rw [hq]
  rfl

lemma numMembersAnnotate_of_true {req : Request} (user : ReqUser)
    (h : boolParam req.num_members = true) (hbu : boolParam req.by_user = false)
    (items : List AnnServer) :
    numMembersAnnotate req user items =
      items.map (fun a => { a with num_members := some a.server.members.length }) := by
  unfold numMembersAnnotate memberRowsVisible
  rw [h, hbu]
  rfl

/-- C6: for `category=X&num_members=true&qty=1` (with the two guarded
parameters inactive), the handler composes the category filter first,
the member-count annotation second and the truncation last, and the
result has exactly one item whenever at least one server matches the
category. -/
theorem c6_filter_annotate_truncate (db : List Server) (req : Request) (user : ReqUser)
    (cat : String) (hcat : req.category = some cat) (hne : cat ≠ "")
    (hnm : req.num_members = some "true") (hq : req.qty = some "1")
    (hbu : req.by_user ≠ some "true") (hsid : truthy req.by_serverid = false) :
    serverList db req user =
      .ok (((categoryFilter req (initItems db)).map
        (fun a => { a with num_members := some a.server.members.length })).take 1) ∧
    ((∃ s ∈ db, s.categoryName = cat) → ∃ a, serverList db req user = .ok [a]) := by
  have hpre := @preServerid_of_skip db req user (boolParam_false hbu)
  have hmain : serverList db req user =
      .ok (((categoryFilter req (initItems db)).map
        (fun a => { a with num_members := some a.server.members.length })).take 1) := by
    rw [serverList_of_preServerid hpre, byServeridFilter_skip hsid, ok_bind,
      qtyTruncate_one hq, numMembersAnnotate_of_true user (boolParam_true hnm)
        (boolParam_false hbu)]
  refine ⟨hmain, ?_⟩
  rintro ⟨s, hs, hscat⟩
  have hmem : (⟨s, none⟩ : AnnServer) ∈ categoryFilter req (initItems db) := by
    unfold categoryFilter initItems
    rw [hcat, truthy_some hne, if_pos rfl]
    refine List.mem_filter.mpr ⟨List.mem_map_of_mem _ hs, ?_⟩
    simp [hscat]
  have hne2 : (categoryFilter req (initItems db)).map
      (fun a => { a with num_members := some a.server.members.length }) ≠ [] := by
    intro hnil
    exact List.ne_nil_of_mem hmem (List.map_eq_nil_iff.mp hnil)
  obtain ⟨b, t, hbt⟩ := List.exists_cons_of_ne_nil hne2
  refine ⟨b, ?_⟩
  rw [hmain, hbt]
  rfl

theorem c6_witness :
    (serverList wDb ⟨some "gaming", some "1", none, none, some "true"⟩ wAnon =
      .ok (((categoryFilter ⟨some "gaming", some "1", none, none, some "true"⟩
          (initItems wDb)).map
        (fun a => { a with num_members := some a.server.members.length })).take 1)) ∧
    (∃ a, serverList wDb ⟨some "gaming", some "1", none, none, some "true"⟩ wAnon =
      .ok [a]) := by
  have h := c6_filter_annotate_truncate wDb
    ⟨some "gaming", some "1", none, none, some "true"⟩ wAnon "gaming"
    rfl (by decide) rfl rfl (by decide) rfl
  exact ⟨h.1, h.2 ⟨wServer1, by simp [wDb], rfl⟩⟩

end ServerApp

namespace ServerApp

/-- C7: with `qty=N` for a positive integer string `N`, the response is
exactly the first `N` items of the filtered set in default order — or
all of them when fewer than `N` remain. -/
theorem c7_qty_take (db : List Server) (req : Request) (user : ReqUser)
    (items : List AnnServer) (hpre : preQtyItems db req user = .ok items)
    (qs : String) (hq : req.qty = some qs) (n : Int) (hpi : pyInt qs = some n)
    (hpos : 0 < n) :
    serverList db req user = .ok (items.take n.toNat) ∧
    (items.length ≤ n.toNat → serverList db req user = .ok items) := by
  have hmain : serverList db req user = .ok (items.take n.toNat) := by
    rw [serverList_of_preQty hpre]
    unfold qtyTruncate
    rw [hq, truthy_some (pyInt_ne_empty hpi)]
    simp only [Option.getD_some]
    rw [hpi]
    simp [not_lt.mpr hpos.le]
  refine ⟨hmain, fun hle => ?_⟩
  rw [hmain, List.take_of_length_le hle]

theorem c7_witness :
    (serverList wDb ⟨none, some "2", none, none, none⟩ wAnon =
      .ok ((initItems wDb).take 2)) ∧
    (serverList wDb ⟨none, some "9", none, none, none⟩ wAnon =
      .ok (initItems wDb)) := by
  constructor
  · exact (c7_qty_take wDb ⟨none, some "2", none, none, none⟩ wAnon
      (initItems wDb) rfl "2" rfl 2 rfl (by decide)).1
  · exact (c7_qty_take wDb ⟨none, some "9", none, none, none⟩ wAnon
      (initItems wDb) rfl "9" rfl 9 rfl (by decide)).2 (by decide)

end ServerApp
